import Mathlib

/-
Verification of the log-classification engine of `log_analyzer.py`.

The Python engine works by applying a fixed set of `re` regular expressions
to the raw log text.  Each regex of the source is embedded below as an
executable Lean scanner over `List Char` that implements exactly the
leftmost-match / greedy / lazy backtracking behaviour of Python's `re`
engine for that concrete pattern (each definition's doc comment names the
pattern and source location it embeds).  Logs are ASCII text, so Python's
`\s`, `\d` and `str.upper()` coincide with the ASCII notions used here.
-/

set_option maxRecDepth 8000

/-- Python `\s` (whitespace class) for ASCII text: the six characters
space, tab, newline, carriage return, vertical tab, form feed. -/
def pyIsSpace (c : Char) : Bool :=
  c = ' ' || c = '\t' || c = '\n' || c = '\r' || c = '\x0b' || c = '\x0c'

/-- Python `int()` on a nonempty string of ASCII digits. -/
def natOfDigits (l : List Char) : Nat :=
  l.foldl (fun a c => 10 * a + (c.toNat - 48)) 0

/-- Python `str.strip()`: drop whitespace from both ends. -/
def pyStrip (l : List Char) : List Char :=
  ((l.dropWhile pyIsSpace).reverse.dropWhile pyIsSpace).reverse

/-- Substring test: does `pat` occur contiguously inside `l`? -/
def containsSub (pat : List Char) : List Char → Bool
  | [] => pat.isPrefixOf []
  | c :: rest => pat.isPrefixOf (c :: rest) || containsSub pat rest

/-! ## TestIdNormalizer

Source: `PytestLogParser.__init__` line 44 compiles
`test_id_pattern = re.compile(r'(tc[-_]?\d+)', re.IGNORECASE)`; it is used
at lines 65 and 76 as `search(name)` followed by `.group(1).upper()` with
the raw name kept verbatim when the search fails. -/

/-- One attempt of `tc[-_]?\d+` (case-insensitive) anchored at the head of
the list: `t`/`T`, `c`/`C`, an optional single `-` or `_` (greedy, but a
dash not followed by a digit cannot be repaired by dropping it, because the
dash itself is not a digit), then a maximal nonempty digit run.  Returns
the matched characters in their original case. -/
def tcHere : List Char → Option (List Char)
  | t :: c :: rest =>
    if (t = 't' || t = 'T') && (c = 'c' || c = 'C') then
      match rest with
      | [] => none
      | d :: rest2 =>
        if d = '-' || d = '_' then
          let ds := rest2.takeWhile Char.isDigit
          if ds.length ≥ 1 then some (t :: c :: d :: ds) else none
        else
          let ds := rest.takeWhile Char.isDigit
          if ds.length ≥ 1 then some (t :: c :: ds) else none
    else none
  | _ => none

/-- `test_id_pattern.search`: leftmost match of `tc[-_]?\d+`, scanning
start positions left to right (source line 44). -/
def tcSearch : List Char → Option (List Char)
  | [] => none
  | c :: rest =>
    match tcHere (c :: rest) with
    | some t => some t
    | none => tcSearch rest

/-- The normalization applied at source lines 65-66 and 76: the first
`tc[-_]?\d+` token upper-cased when one exists, otherwise the raw name. -/
def normalizeTestId (name : List Char) : List Char :=
  match tcSearch name with
  | some t => t.map Char.toUpper
  | none => name

/-! ## PassedSetExtractor

Source: `PytestLogParser._get_passed_test_ids` lines 60-67, driven by
`re.compile(r"^(?:.*\s)?(\S+\.py::\S+)\s+PASSED", re.MULTILINE).finditer`. -/

/-- Does `.py::` occur at some split position `i ≥ 1` of the nonspace run,
with at least one character after it?  This is the condition for
`\S+\.py::\S+` to match the run (the greedy pieces always extend the
capture to the whole run). -/
def hasPySplit : List Char → Bool
  | [] => false
  | _ :: rest =>
    ((".py::".data.isPrefixOf rest) && rest.length ≥ 6) || hasPySplit rest

/-- Attempt of `(\S+\.py::\S+)\s+PASSED` at a fixed position: the capture
is the maximal nonspace run (which must contain an interior `.py::`),
followed by a nonempty maximal whitespace run and the literal `PASSED`.
Returns the capture and the suffix after the match end. -/
def tryGroupAt (u : List Char) : Option (List Char × List Char) :=
  let r := u.takeWhile (fun c => !(pyIsSpace c))
  if hasPySplit r then
    let v := u.drop r.length
    let w := v.takeWhile pyIsSpace
    if w.length ≥ 1 && ("PASSED".data.isPrefixOf (v.drop w.length)) then
      some (r, (v.drop w.length).drop 6)
    else none
  else none

/-- The `(?:.*\s)?` alternative with `.*` of length exactly `k`: the
single `\s` must sit at offset `k`, and the capture group is then tried
right after it. -/
def passedStep (l : List Char) (k : Nat) : Option (List Char × List Char) :=
  match l.drop k with
  | [] => none
  | c :: rest => if pyIsSpace c then tryGroupAt rest else none

/-- Backtracking order of the greedy optional `(?:.*\s)?` at a line start:
`.*` lengths from the full line length down to `0`, then the group with
the optional part omitted. -/
def passedSearchK (l : List Char) : Nat → Option (List Char × List Char)
  | 0 =>
    (match passedStep l 0 with
     | some r => some r
     | none => tryGroupAt l)
  | k + 1 =>
    (match passedStep l (k + 1) with
     | some r => some r
     | none => passedSearchK l k)

/-- Attempt of `^(?:.*\s)?(\S+\.py::\S+)\s+PASSED` at a line start. -/
def tryPassedAt (l : List Char) : Option (List Char × List Char) :=
  passedSearchK l (l.takeWhile (fun c => c ≠ '\n')).length

/-- `finditer` scan for the PASSED pattern: `^` (MULTILINE) restricts
candidate starts to the string start and positions after a newline; a
successful match resumes the scan at its end (which is never a line
start, the match ends in `PASSED`). -/
def passedAux : Nat → Bool → List Char → List (List Char)
  | 0, _, _ => []
  | _ + 1, _, [] => []
  | fuel + 1, atStart, c :: rest =>
    if atStart then
      match tryPassedAt (c :: rest) with
      | some (cap, after) => cap :: passedAux fuel false after
      | none => passedAux fuel (c = '\n') rest
    else passedAux fuel (c = '\n') rest

/-- All captures of the PASSED pattern over the whole log, in order. -/
def passedCaptures (log : List Char) : List (List Char) :=
  passedAux (log.length + 1) true log

/-- `_get_passed_test_ids` (lines 60-67): normalize every capture.  The
Python `set` is modeled as the list of inserted identifiers; only
membership in it is ever consumed (line 77), for which the two agree. -/
def passedIds (log : List Char) : List (List Char) :=
  (passedCaptures log).map normalizeTestId

/-! ## SummaryAggregator

Source: `PytestLogParser._parse_summary` lines 49-59, driven by
`re.compile(r"={10,}\s(.*?)\s={10,}").finditer` and per-banner
`re.search(r"(\d+)\s+<label>", text)` for the four category labels. -/

/-- Lazy growth of `(.*?)\s={10,}` inside a banner: starting right after
the opening `\s`, the group grows one non-newline character at a time; at
each position the engine first checks whether the current character is a
`\s` followed by ten or more `=` (success: the closing run is consumed
greedily and the suffix after it is returned), and a newline that is not
such a separator stops the search (the group cannot contain `\n`). -/
def bannerGroup : List Char → Option (List Char × List Char)
  | [] => none
  | c :: rest =>
    if pyIsSpace c && (rest.takeWhile (fun x => x = '=')).length ≥ 10 then
      some ([], rest.drop (rest.takeWhile (fun x => x = '=')).length)
    else if c = '\n' then none
    else (bannerGroup rest).map (fun p => (c :: p.1, p.2))

/-- Attempt of `={10,}\s(.*?)\s={10,}` at a fixed position: a maximal run
of ten or more `=`, one whitespace character, then the lazy group.
Returns the captured banner text and the suffix after the match end. -/
def tryBannerAt (l : List Char) : Option (List Char × List Char) :=
  let e1 := l.takeWhile (fun x => x = '=')
  if e1.length ≥ 10 then
    match l.drop e1.length with
    | [] => none
    | w :: body => if pyIsSpace w then bannerGroup body else none
  else none

/-- `finditer` scan for the banner pattern: try every position left to
right, resuming after the end of each match. -/
def bannerAux : Nat → List Char → List (List Char)
  | 0, _ => []
  | _ + 1, [] => []
  | fuel + 1, c :: rest =>
    match tryBannerAt (c :: rest) with
    | some (txt, after) => txt :: bannerAux fuel after
    | none => bannerAux fuel rest

/-- All banner texts of the log, in order (source line 53). -/
def findBanners (log : List Char) : List (List Char) :=
  bannerAux (log.length + 1) log

/-- Attempt of `(\d+)\s+<label>` at a fixed position: a maximal nonempty
digit run, a maximal nonempty whitespace run, then the literal label
(`failed`, `passed`, `error`, `skipped`; no trailing boundary). -/
def countHere (label : List Char) (l : List Char) : Option Nat :=
  let ds := l.takeWhile Char.isDigit
  if ds.length ≥ 1 then
    let r := l.drop ds.length
    let w := r.takeWhile pyIsSpace
    if w.length ≥ 1 && label.isPrefixOf (r.drop w.length) then
      some (natOfDigits ds)
    else none
  else none

/-- `re.search(r"(\d+)\s+<label>", text)` (source lines 55-57): leftmost
match, scanning start positions left to right. -/
def findNum (label : List Char) : List Char → Option Nat
  | [] => none
  | c :: rest =>
    match countHere label (c :: rest) with
    | some n => some n
    | none => findNum label rest

/-- One entry of the `results["failures"]` list (source line 86): the
normalized test identity and the extracted failure detail, stored under
the dictionary key `code_line`. -/
structure FailureRecord where
  test_id : List Char
  code_line : List Char
deriving DecidableEq, Repr

/-- The `results` dictionary of `PytestLogParser` (source line 43). -/
structure AnalysisResults where
  total : Nat
  passed : Nat
  failed : Nat
  errors : Nat
  skipped : Nat
  failures : List FailureRecord
deriving DecidableEq, Repr

/-- The per-banner body of the summary loop (source lines 54-57): each of
the four category counts found in the banner text is added onto the
running total for that category; an absent count adds nothing. -/
def addBanner (r : AnalysisResults) (txt : List Char) : AnalysisResults :=
  { r with
    failed := r.failed + (findNum "failed".data txt).getD 0
    passed := r.passed + (findNum "passed".data txt).getD 0
    errors := r.errors + (findNum "error".data txt).getD 0
    skipped := r.skipped + (findNum "skipped".data txt).getD 0 }

/-- `_parse_summary` (lines 49-59): zero the five count keys, accumulate
the four categories over every banner, then set `total` to the sum of the
four category totals (the log's own literal total is never consulted:
only the labels `failed`, `passed`, `error`, `skipped` are searched). -/
def parseSummary (log : List Char) : AnalysisResults :=
  let r := (findBanners log).foldl addBanner ⟨0, 0, 0, 0, 0, []⟩
  { r with total := r.passed + r.failed + r.errors + r.skipped }

/-! ## FailureBlockExtractor

Source: `PytestLogParser._parse_failure_details` lines 68-87, driven by
`failure_block_pattern`
`_{5,}\s+(test_\S+)\s+_{5,}(.*?)(?=(?:_{5,}\s+test_\S+\s+_{5,}|={10,}))`
with `re.DOTALL`, plus the three detail regexes of lines 71, 73 and 83. -/

/-- Attempt of the header part `_{5,}\s+(test_\S+)\s+_{5,}` at a fixed
position, parsed with maximal runs.  For every boundary except the last
the following construct expects a disjoint character class, so greedy
backtracking of those runs never helps; the trailing `_{5,}` is followed
by `(.*?)`, so its backtracking does matter and is handled by the caller
(`tryMatchAt`).  Returns the captured name token, the suffix starting at
the trailing underscore run, and the maximal length of that run. -/
def parseHeaderCore (l : List Char) : Option (List Char × List Char × Nat) :=
  let u1 := l.takeWhile (fun x => x = '_')
  if u1.length ≥ 5 then
    let r1 := l.drop u1.length
    let w1 := r1.takeWhile pyIsSpace
    if w1.length ≥ 1 then
      let r2 := r1.drop w1.length
      if "test_".data.isPrefixOf r2 then
        let r3 := r2.drop 5
        let nm := r3.takeWhile (fun c => !(pyIsSpace c))
        if nm.length ≥ 1 then
          let r4 := r3.drop nm.length
          let w2 := r4.takeWhile pyIsSpace
          if w2.length ≥ 1 then
            let r5 := r4.drop w2.length
            let u2 := r5.takeWhile (fun x => x = '_')
            if u2.length ≥ 5 then some ("test_".data ++ nm, r5, u2.length)
            else none
          else none
        else none
      else none
    else none
  else none

/-- Existence of a header match at a fixed position, with the remainder
after the maximal trailing run.  Inside the lookahead only existence
matters and nothing follows the trailing run there, so the maximal parse
decides it. -/
def parseHeaderAt (l : List Char) : Option (List Char × List Char) :=
  (parseHeaderCore l).map (fun t => (t.1, t.2.1.drop t.2.2))

/-- The lookahead `(?=(?:_{5,}\s+test_\S+\s+_{5,}|={10,}))`: a further
failure-section header or a run of ten or more `=` starts here. -/
def isTerminatorAt (l : List Char) : Bool :=
  (parseHeaderAt l).isSome || (l.takeWhile (fun x => x = '=')).length ≥ 10

/-- Lazy growth of the DOTALL group `(.*?)` of the failure-block pattern:
the shortest split of the text into `content ++ rest` such that the
lookahead succeeds at `rest`; `none` when no terminator follows. -/
def findTermSplit : List Char → Option (List Char × List Char)
  | [] => none
  | c :: rest =>
    if isTerminatorAt (c :: rest) then some ([], c :: rest)
    else (findTermSplit rest).map (fun p => (c :: p.1, p.2))

/-- Backtracking of the trailing `_{5,}` run when the lazy group finds no
terminator after the maximal run: run lengths `j` descend from the
maximal length minus one down to `5`; the group then restarts at offset
`j` of the trailing-run suffix, and only its empty instance checks a
position not already ruled out (the lookahead depends only on the
position, and larger `j` are tried first), so the content of such a match
is empty.  The first `j` whose boundary satisfies the lookahead wins. -/
def trailBacktrack (nm : List Char) (r5 : List Char) : Nat → Option (List Char × List Char × List Char)
  | 0 => none
  | j + 1 =>
    if j + 1 ≥ 5 && isTerminatorAt (r5.drop (j + 1)) then some (nm, [], r5.drop (j + 1))
    else trailBacktrack nm r5 j

/-- Attempt of the full failure-block pattern at a fixed position: header
with maximal trailing run, then content up to the first terminator; when
no terminator follows the maximal run, the trailing run is backtracked
(`trailBacktrack`).  The match ends at the lookahead position, so the
returned `rest` is where `finditer` resumes. -/
def tryMatchAt (l : List Char) : Option (List Char × List Char × List Char) :=
  match parseHeaderCore l with
  | none => none
  | some (nm, r5, u) =>
    match findTermSplit (r5.drop u) with
    | none => trailBacktrack nm r5 (u - 1)
    | some (content, rest) => some (nm, content, rest)

/-- `finditer` scan for the failure-block pattern: try every position left
to right, resuming at the match end (the terminator itself, so a header
that terminates one section can start the next). -/
def sectionsAux : Nat → List Char → List (List Char × List Char)
  | 0, _ => []
  | _ + 1, [] => []
  | fuel + 1, c :: rest =>
    match tryMatchAt (c :: rest) with
    | some (nm, content, after) => (nm, content) :: sectionsAux fuel after
    | none => sectionsAux fuel rest

/-- All failure sections `(header name token, section body)` of the log,
in order (source line 74). -/
def findSections (log : List Char) : List (List Char × List Char) :=
  sectionsAux (log.length + 1) log

/-- Does `.applitools.com` occur at some split position `i ≥ 1` of the
nonspace run after `://`, with at least one character after it? -/
def apSplit : List Char → Bool
  | [] => false
  | _ :: rest =>
    ((".applitools.com".data.isPrefixOf rest) && rest.length ≥ 16) || apSplit rest

/-- Attempt of `https?://\S+\.applitools\.com\S+` at a fixed position:
the literal scheme (greedy optional `s`), then the maximal nonspace run,
which must contain an interior `.applitools.com`; the capture extends to
the end of the run. -/
def applitoolsHere (l : List Char) : Option (List Char) :=
  if "https://".data.isPrefixOf l then
    let s := (l.drop 8).takeWhile (fun c => !(pyIsSpace c))
    if apSplit s then some ("https://".data ++ s) else none
  else if "http://".data.isPrefixOf l then
    let s := (l.drop 7).takeWhile (fun c => !(pyIsSpace c))
    if apSplit s then some ("http://".data ++ s) else none
  else none

/-- `applitools_pattern.search` (source line 71): leftmost match. -/
def applitoolsSearch : List Char → Option (List Char)
  | [] => none
  | c :: rest =>
    match applitoolsHere (c :: rest) with
    | some u => some u
    | none => applitoolsSearch rest

/-- The digit run of `(\d+)` at split `i` of the nonspace run `r`:
everything after `<first \S+ of length i>.py:` up to the next non-digit. -/
def errDigits (r : List Char) (i : Nat) : List Char :=
  (r.drop (i + 4)).takeWhile Char.isDigit

/-- Does `(\S+\.py):(\d+):` account for the run `r` with the first `\S+`
of length exactly `i`?  `.py` then `:` at offset `i`, a nonempty maximal
digit run, and the second `:` as the very last character of the run (a
nonspace character after it would make the following `\s+` fail for every
split, because the digit run is maximal). -/
def errCondAt (r : List Char) (i : Nat) : Bool :=
  (".py:".data.isPrefixOf (r.drop i)) &&
    (errDigits r i).length ≥ 1 &&
    r.drop (i + 4 + (errDigits r i).length) = [':']

/-- Greedy backtracking of the first `\S+` of the error-line pattern:
split positions `i` from large to small, at least `1`. -/
def errSplit (r : List Char) : Nat → Option (List Char × List Char)
  | 0 => none
  | i + 1 =>
    if errCondAt r (i + 1) then some (r.take (i + 1 + 3), errDigits r (i + 1))
    else errSplit r i

/-- Attempt of `^\s*(\S+\.py):(\d+):\s+(.*Error.*)$` at one anchor of the
MULTILINE search: `\s*` greedily skips whitespace (across newlines) to the
first nonspace character, whose maximal nonspace run must parse as
`<file>.py:<line>:`; then a nonempty whitespace run and the rest of that
line, which must contain `Error` (the third capture extends to the line
end, where `$` always holds).  Returns `(file, line digits, text)`. -/
def errorTryAnchor (l : List Char) : Option (List Char × List Char × List Char) :=
  let n := l.dropWhile pyIsSpace
  let r := n.takeWhile (fun c => !(pyIsSpace c))
  match errSplit r r.length with
  | none => none
  | some (fileGroup, digits) =>
    let v := n.drop r.length
    let w := v.takeWhile pyIsSpace
    if w.length ≥ 1 then
      let seg := (v.drop w.length).takeWhile (fun c => c ≠ '\n')
      if containsSub "Error".data seg then some (fileGroup, digits, seg) else none
    else none

/-- MULTILINE `.search` anchor scan: the string start, then the position
after each newline, left to right. -/
def errorSearchAux : Nat → List Char → Option (List Char × List Char × List Char)
  | 0, _ => none
  | _ + 1, [] => none
  | fuel + 1, l =>
    match errorTryAnchor l with
    | some r => some r
    | none => errorSearchAux fuel ((l.dropWhile (fun c => c ≠ '\n')).drop 1)

/-- `error_line_pattern.search` on a section body (source line 73). -/
def errorLineSearch (content : List Char) : Option (List Char × List Char × List Char) :=
  errorSearchAux (content.length + 1) content

/-- Attempt of `^<digits>\s+>\s+(.*)$` at one anchor: the literal digit
string of the error line at the line start, a nonempty maximal whitespace
run, `>`, another nonempty maximal whitespace run, and the capture up to
the line end. -/
def codeTryAnchor (digits : List Char) (l : List Char) : Option (List Char) :=
  if digits.isPrefixOf l then
    let r := l.drop digits.length
    let w1 := r.takeWhile pyIsSpace
    if w1.length ≥ 1 then
      match r.drop w1.length with
      | '>' :: r2 =>
        let w2 := r2.takeWhile pyIsSpace
        if w2.length ≥ 1 then some ((r2.drop w2.length).takeWhile (fun c => c ≠ '\n'))
        else none
      | _ => none
    else none
  else none

/-- MULTILINE anchor scan for the cursor-line pattern. -/
def codeSearchAux (digits : List Char) : Nat → List Char → Option (List Char)
  | 0, _ => none
  | _ + 1, [] => none
  | fuel + 1, l =>
    match codeTryAnchor digits l with
    | some r => some r
    | none => codeSearchAux digits fuel ((l.dropWhile (fun c => c ≠ '\n')).drop 1)

/-- The cursor-line search `re.compile(rf"^{line_number}\s+>\s+(.*)$",
re.MULTILINE).search(failure_content)` (source line 83). -/
def codeLineSearch (digits : List Char) (content : List Char) : Option (List Char) :=
  codeSearchAux digits (content.length + 1) content

/-- The detail computation of source lines 78-84: default text, overridden
by an Applitools URL, else by `Error: <text>` from an error line, itself
overridden by the stripped capture of a matching cursor line. -/
def failureDetail (content : List Char) : List Char :=
  match applitoolsSearch content with
  | some url => url
  | none =>
    match errorLineSearch content with
    | some (_, digits, errorType) =>
      (match codeLineSearch digits content with
       | some code => pyStrip code
       | none => "Error: ".data ++ errorType)
    | none => "Could not determine failure.".data

/-- The loop of `_parse_failure_details` (source lines 74-87): normalize
the header token, drop the section when the identity is in the passed
set, compute the detail, and append unless the `(test_id, detail)` pair
was already emitted (the Python `seen_failures` set is modeled as the
list of emitted pairs). -/
def failLoop (passed : List (List Char)) :
    List (List Char × List Char) → List (List Char × List Char) → List FailureRecord
  | [], _ => []
  | (nm, content) :: rest, seen =>
    let tid := normalizeTestId nm
    if tid ∈ passed then failLoop passed rest seen
    else
      let detail := failureDetail content
      if (tid, detail) ∈ seen then failLoop passed rest seen
      else ⟨tid, detail⟩ :: failLoop passed rest ((tid, detail) :: seen)

/-- `_parse_failure_details` (lines 68-87). -/
def parseFailureDetails (log : List Char) : List FailureRecord :=
  failLoop (passedIds log) (findSections log) []

/-- `PytestLogParser.parse` (lines 45-48): summary counts plus the
failure records. -/
def parse (log : List Char) : AnalysisResults :=
  { parseSummary log with failures := parseFailureDetails log }

/-! ## StageFailureDetector and orchestration

Source: `StageFailureDetector` lines 108-140 and `MultiJobAnalyzer.run_all`
lines 159-189.  The pattern regexes are operator-supplied (loaded from an
external JSON file, not part of the source), so a pattern's compiled
`search` is modeled as an abstract function from the log to the matched
span (`match.group(0)` of the first match), if any. -/

/-- One entry of the detector's pattern list as consumed by `check`: the
`description` value and the compiled case-insensitive regex, abstracted
by its `search` behaviour. -/
structure StageFailurePattern where
  description : List Char
  compiled : List Char → Option (List Char)

/-- `match.group(0).strip().split('\n')[0]` (source line 138): strip the
whole matched span, then keep the part before the first newline. -/
def matchedEvidence (m : List Char) : List Char :=
  (pyStrip m).takeWhile (fun c => c ≠ '\n')

/-- `StageFailureDetector.check` (lines 130-140): evaluate the patterns
strictly in list order and return, for the first whose search succeeds,
its description and evidence line; `None` otherwise. -/
def check (patterns : List StageFailurePattern) (log : List Char) :
    Option (List Char × List Char) :=
  match patterns with
  | [] => none
  | p :: rest =>
    match p.compiled log with
    | some m => some (p.description, matchedEvidence m)
    | none => check rest log

/-- The per-target verdict of `run_all`: either a stage-failure report or
a pytest analysis report, never both (lines 174-186). -/
inductive ClassificationResult where
  | stageFailure (description evidenceLine : List Char)
  | testReport (results : AnalysisResults)
deriving Repr

/-- The classification step of `run_all` for one fetched log (lines
174-186): `check` first; on a hit the stage-failure report is the verdict
and the parser is skipped (`continue`), otherwise the pytest analysis
runs. -/
def analyzeTarget (patterns : List StageFailurePattern) (log : List Char) :
    ClassificationResult :=
  match check patterns log with
  | some (d, e) => ClassificationResult.stageFailure d e
  | none => ClassificationResult.testReport (parse log)

/-! ## Pattern loading

Source: `StageFailureDetector._load_patterns` lines 115-128.  The JSON
value produced by `json.load` is modeled explicitly; `open`/`json.load`
failures are the `fileMissing`/`badJson` outcomes.  `re.compile` on a
string succeeds structurally here (the loaded entry keeps the raw pattern
source), while `re.compile` on a non-string raises `TypeError`, which the
`except` clause of lines 126-128 does not catch. -/

/-- A JSON value as produced by `json.load`. -/
inductive Json where
  | str (s : List Char)
  | num (n : Int)
  | bool (b : Bool)
  | null
  | arr (elems : List Json)
  | obj (fields : List (List Char × Json))

/-- The outcome of `open(path)` plus `json.load(f)` (lines 117-118). -/
inductive FileOutcome where
  | fileMissing
  | badJson
  | ok (j : Json)

/-- One successfully loaded pattern entry: the original object fields and
the raw source of its compiled `pattern` regex. -/
structure LoadedEntry where
  fields : List (List Char × Json)
  patternSrc : List Char

/-- Python `dict[key]` on the modeled object fields (first binding wins,
as later duplicate keys overwrite earlier ones in `json.load`, modeled by
keeping the effective binding list). -/
def lookupField (key : List Char) : List (List Char × Json) → Option Json
  | [] => none
  | (k, v) :: rest => if k = key then some v else lookupField key rest

/-- The `for p in patterns_data` compile loop of lines 120-121,
parameterized by the oracle `compileOk` telling which pattern sources
`re.compile` accepts (regex validity is external to this program):
`none` models an uncaught exception — a `TypeError` from indexing a
non-dict entry or compiling a non-string, or the `re.error` raised by
`re.compile` on an invalid regex source, none of which the handler of
lines 126-128 catches — while `some []` models the `KeyError` of a
missing `pattern` key reaching that handler. -/
def loadEntries (compileOk : List Char → Bool) :
    List Json → List LoadedEntry → Option (List LoadedEntry)
  | [], acc => some acc.reverse
  | Json.obj fields :: rest, acc =>
    (match lookupField "pattern".data fields with
     | none => some []
     | some (Json.str s) =>
       if compileOk s then loadEntries compileOk rest (⟨fields, s⟩ :: acc) else none
     | some _ => none)
  | _ :: _, _ => none

/-- `_load_patterns` (lines 115-128): a missing file or undecodable JSON
is caught and degrades to the empty list with a warning; a loaded JSON
array runs the compile loop.  A non-array, non-empty JSON value makes the
loop raise an uncaught `TypeError` (`none`); the degenerate empty string
and empty object iterate zero entries and behave as an empty list. -/
def loadPatterns (compileOk : List Char → Bool) : FileOutcome → Option (List LoadedEntry)
  | FileOutcome.fileMissing => some []
  | FileOutcome.badJson => some []
  | FileOutcome.ok (Json.arr elems) => loadEntries compileOk elems []
  | FileOutcome.ok (Json.str []) => some []
  | FileOutcome.ok (Json.obj []) => some []
  | FileOutcome.ok _ => none

/-- An entry that the compile loop of lines 120-121 traverses without
raising and without a `KeyError`: an object whose `pattern` key holds a
string that `re.compile` accepts. -/
def entryLoadable (compileOk : List Char → Bool) : Json → Bool
  | Json.obj fields =>
    (match lookupField "pattern".data fields with
     | some (Json.str s) => compileOk s
     | _ => false)
  | _ => false

/-! ## Specification-side definitions (for refinement comparison only) -/

/-- Modelled from the spec (§3 FailureRecord invariant): first-seen-order
deduplication by the `(test_id, detail)` pair. -/
def dedupAux : List FailureRecord → List (List Char × List Char) → List FailureRecord
  | [], _ => []
  | r :: rest, seen =>
    if (r.test_id, r.code_line) ∈ seen then dedupAux rest seen
    else r :: dedupAux rest ((r.test_id, r.code_line) :: seen)

/-- Modelled from the spec (§3): keep the first occurrence of each
`(test_id, detail)` pair, in first-seen order. -/
def firstSeenDedup (l : List FailureRecord) : List FailureRecord :=
  dedupAux l []

/-- The pre-deduplication failure stream: one candidate record per
non-suppressed section, in log order. -/
def rawFailures (log : List Char) : List FailureRecord :=
  (findSections log).filterMap (fun s =>
    if normalizeTestId s.1 ∈ passedIds log then none
    else some ⟨normalizeTestId s.1, failureDetail s.2⟩)

/-! ## Concrete logs and patterns used as evaluation inputs -/

/-- A log with a failure section for `test_checkout_tc101` (suppressed by
the later PASSED rerun line), a failure section for `test_other`, and a
closing `=` run terminating the second section. -/
def demoLog1 : List Char :=
  ("_____ test_checkout_tc101 _____\nbody1\n_____ test_other _____\nbody2\n" ++
   "==========\ntests/test_checkout.py::test_checkout_tc101 PASSED").data

/-- Two summary banners, `2 passed, 1 failed` and `3 passed, 0 failed`. -/
def demoLog3 : List Char :=
  "========== 2 passed, 1 failed ==========\n========== 3 passed, 0 failed ==========".data

/-- A log containing an infrastructure failure signature. -/
def demoLog5 : List Char :=
  "Build step failed\njava.lang.OutOfMemoryError: heap\ndone".data

/-- A stage-failure pattern whose regex search finds the literal
`OutOfMemoryError` anywhere in the log. -/
def demoPatOOM : StageFailurePattern :=
  ⟨"OOM".data,
   fun log => if containsSub "OutOfMemoryError".data log then some "OutOfMemoryError".data else none⟩

/-- The section body of the specification's end-to-end example:
`login.py:42: AssertionError` with cursor line `42 > assert ...`. -/
def demoContent6 : List Char :=
  "\nlogin.py:42: AssertionError\n42 > assert resp.status == 200\n".data

/-- A log whose only test appears both as a PASSED line and as a failure
section header, with no `tc` token in its name. -/
def demoLog8 : List Char :=
  "tests/test_x.py::test_x PASSED\n_____ test_x _____\nbody\n==========".data

/-- A trailing failure section with no terminating delimiter after it. -/
def demoLogA : List Char := "_____ test_x _____\nbody".data

/-- The same section followed by a terminating `=` run. -/
def demoLogB : List Char := "_____ test_x _____\nbody\n==========".data

/-- A pattern file whose single entry has a `pattern` key but no
`description` key: malformed per the interface contract. -/
def demoBadPatterns : FileOutcome :=
  FileOutcome.ok (Json.arr [Json.obj [("pattern".data, Json.str "boom".data)]])

/-- Compile oracle for the demo pattern files: their only pattern source
is the metacharacter-free literal `boom`, which `re.compile` accepts. -/
def demoCompileOk (s : List Char) : Bool := s = "boom".data

/-- A log whose first header's trailing underscore run (length ten) is
followed by a second header-shaped fragment and then nothing: the match
succeeds only by backtracking the trailing run, carving an empty-content
section for `test_a`. -/
def demoLogC : List Char := "_____ test_a __________ test_b _____".data

/-! ## Helper lemmas -/

/-- Every record emitted by the failure loop has an identity outside the
passed set: the loop discards a section before computing any detail as
soon as its normalized identity is a member. -/
theorem failLoop_not_passed (passed : List (List Char)) :
    ∀ secs seen r, r ∈ failLoop passed secs seen → r.test_id ∉ passed := by
  intro secs
  induction secs with
  | nil => intro seen r h; simp [failLoop] at h
  | cons s rest ih =>
    obtain ⟨nm, content⟩ := s
    intro seen r h
    simp only [failLoop] at h
    by_cases h1 : normalizeTestId nm ∈ passed
    · rw [if_pos h1] at h
      exact ih seen r h
    · rw [if_neg h1] at h
      by_cases h2 : (normalizeTestId nm, failureDetail content) ∈ seen
      · rw [if_pos h2] at h
        exact ih seen r h
      · rw [if_neg h2] at h
        rcases List.mem_cons.mp h with rfl | h3
        · exact h1
        · exact ih _ r h3

/-- The failure loop is the first-seen deduplication of the suppressed
candidate stream. -/
theorem failLoop_eq_dedup (passed : List (List Char)) :
    ∀ secs seen,
      failLoop passed secs seen =
        dedupAux (secs.filterMap (fun s =>
          if normalizeTestId s.1 ∈ passed then none
          else some ⟨normalizeTestId s.1, failureDetail s.2⟩)) seen := by
  intro secs
  induction secs with
  | nil => intro seen; simp [failLoop, dedupAux]
  | cons s rest ih =>
    obtain ⟨nm, content⟩ := s
    intro seen
    simp only [failLoop, List.filterMap_cons]
    by_cases h1 : normalizeTestId nm ∈ passed
    · rw [if_pos h1, if_pos h1, ih]
    · rw [if_neg h1, if_neg h1]
      simp only [dedupAux]
      by_cases h2 : (normalizeTestId nm, failureDetail content) ∈ seen
      · rw [if_pos h2, if_pos h2, ih]
      · rw [if_neg h2, if_neg h2, ih]

/-- The first-seen deduplication never emits a key already seen, and its
output has pairwise distinct `(test_id, detail)` keys. -/
theorem dedupAux_spec :
    ∀ l seen,
      (∀ r ∈ dedupAux l seen, (r.test_id, r.code_line) ∉ seen) ∧
        List.Pairwise
          (fun a b : FailureRecord => ¬(a.test_id = b.test_id ∧ a.code_line = b.code_line))
          (dedupAux l seen) := by
  intro l
  induction l with
  | nil => intro seen; simp [dedupAux]
  | cons r rest ih =>
    intro seen
    simp only [dedupAux]
    by_cases h1 : (r.test_id, r.code_line) ∈ seen
    · rw [if_pos h1]
      exact ih seen
    · rw [if_neg h1]
      obtain ⟨ihMem, ihPw⟩ := ih ((r.test_id, r.code_line) :: seen)
      refine ⟨?_, ?_⟩
      · intro x hx
        rcases List.mem_cons.mp hx with rfl | hx'
        · exact h1
        · intro hk
          exact ihMem x hx' (List.mem_cons_of_mem _ hk)
      · refine List.pairwise_cons.mpr ⟨?_, ihPw⟩
        intro b hb hk
        have := ihMem b hb
        apply this
        have : (b.test_id, b.code_line) = (r.test_id, r.code_line) := by
          rw [hk.1, hk.2]
        rw [this]
        exact List.mem_cons_self _ _

/-- Category totals of the summary fold: each of the four counters of the
fold result is its initial value plus the sum of the per-banner counts;
banners accumulate, they never overwrite. -/
theorem addBanner_foldl :
    ∀ (ts : List (List Char)) (r : AnalysisResults),
      ((ts.foldl addBanner r).passed =
        r.passed + (ts.map (fun t => (findNum "passed".data t).getD 0)).sum) ∧
      ((ts.foldl addBanner r).failed =
        r.failed + (ts.map (fun t => (findNum "failed".data t).getD 0)).sum) ∧
      ((ts.foldl addBanner r).errors =
        r.errors + (ts.map (fun t => (findNum "error".data t).getD 0)).sum) ∧
      ((ts.foldl addBanner r).skipped =
        r.skipped + (ts.map (fun t => (findNum "skipped".data t).getD 0)).sum) := by
  intro ts
  induction ts with
  | nil => intro r; simp
  | cons t rest ih =>
    intro r
    obtain ⟨ih1, ih2, ih3, ih4⟩ := ih (addBanner r t)
    simp only [List.foldl_cons, List.map_cons, List.sum_cons]
    refine ⟨?_, ?_, ?_, ?_⟩
    · rw [ih1]; simp [addBanner]; omega
    · rw [ih2]; simp [addBanner]; omega
    · rw [ih3]; simp [addBanner]; omega
    · rw [ih4]; simp [addBanner]; omega

/-- The terminator split returned by the lazy group: the section content
and the terminator suffix recompose the scanned text, and the suffix
satisfies the lookahead. -/
theorem findTermSplit_spec :
    ∀ l a b, findTermSplit l = some (a, b) → a ++ b = l ∧ isTerminatorAt b = true := by
  intro l
  induction l with
  | nil => intro a b h; simp [findTermSplit] at h
  | cons c rest ih =>
    intro a b h
    simp only [findTermSplit] at h
    by_cases h1 : isTerminatorAt (c :: rest) = true
    · rw [if_pos h1] at h
      cases h
      exact ⟨rfl, h1⟩
    · rw [if_neg h1] at h
      cases h2 : findTermSplit rest with
      | none => rw [h2] at h; simp at h
      | some p =>
        obtain ⟨p1, p2⟩ := p
        rw [h2] at h
        simp only [Option.map_some', Option.some.injEq, Prod.mk.injEq] at h
        obtain ⟨rfl, rfl⟩ := h
        obtain ⟨e1, e2⟩ := ih p1 p2 h2
        constructor
        · simp [← e1]
        · exact e2

/-- The trailing-run suffix of a header parse is a suffix of the scanned
text. -/
theorem parseHeaderCore_suffix :
    ∀ l nm r5 u, parseHeaderCore l = some (nm, r5, u) → r5 <:+ l := by
  intro l nm r5 u h
  simp only [parseHeaderCore] at h
  repeat' split at h
  any_goals exact Option.noConfusion h
  simp only [Option.some.injEq, Prod.mk.injEq] at h
  obtain ⟨-, rfl, -⟩ := h
  exact ((List.drop_suffix _ _).trans ((List.drop_suffix _ _).trans
    ((List.drop_suffix _ _).trans ((List.drop_suffix _ _).trans
      (List.drop_suffix _ _)))))

/-- A match produced by backtracking the trailing run has empty content
and resumes at a lookahead-satisfying suffix of the trailing-run text. -/
theorem trailBacktrack_spec :
    ∀ j nm r5 nm' c rest, trailBacktrack nm r5 j = some (nm', c, rest) →
      nm' = nm ∧ c = [] ∧ rest <:+ r5 ∧ isTerminatorAt rest = true := by
  intro j
  induction j with
  | zero => intro nm r5 nm' c rest h; simp [trailBacktrack] at h
  | succ j ih =>
    intro nm r5 nm' c rest h
    simp only [trailBacktrack] at h
    split at h
    · rename_i hcond
      simp only [Bool.and_eq_true] at hcond
      simp only [Option.some.injEq, Prod.mk.injEq] at h
      obtain ⟨rfl, rfl, rfl⟩ := h
      exact ⟨rfl, rfl, List.drop_suffix _ _, hcond.2⟩
    · exact ih nm r5 nm' c rest h

/-- A successful failure-block match decomposes the scanned text into a
header part, the content, and a suffix satisfying the lookahead — on both
the lazy-group path and the trailing-run backtracking path. -/
theorem tryMatchAt_spec :
    ∀ l nm c rest, tryMatchAt l = some (nm, c, rest) →
      (∃ p, l = p ++ (c ++ rest)) ∧ isTerminatorAt rest = true := by
  intro l nm c rest h
  simp only [tryMatchAt] at h
  split at h
  · exact Option.noConfusion h
  rename_i nm' r5 u h1
  obtain ⟨p, hp⟩ := parseHeaderCore_suffix l nm' r5 u h1
  split at h
  · rename_i h2
    obtain ⟨-, rfl, hsfx, hterm⟩ := trailBacktrack_spec _ _ _ _ _ _ h
    obtain ⟨q, hq⟩ := hsfx
    refine ⟨⟨p ++ q, ?_⟩, hterm⟩
    rw [← hp, ← hq]
    simp
  · rename_i content rest' h2
    simp only [Option.some.injEq, Prod.mk.injEq] at h
    obtain ⟨rfl, rfl, rfl⟩ := h
    obtain ⟨e1, e2⟩ := findTermSplit_spec _ _ _ h2
    refine ⟨⟨p ++ r5.take u, ?_⟩, e2⟩
    rw [← hp, e1]
    simp

/-- Every section the scanner emits has its content immediately followed,
inside the scanned text, by a suffix satisfying the lookahead. -/
theorem sectionsAux_spec :
    ∀ fuel l s, s ∈ sectionsAux fuel l →
      ∃ p rest, l = p ++ s.2 ++ rest ∧ isTerminatorAt rest = true := by
  intro fuel
  induction fuel with
  | zero => intro l s h; simp [sectionsAux] at h
  | succ fuel ih =>
    intro l s h
    cases l with
    | nil => simp [sectionsAux] at h
    | cons c tl =>
      simp only [sectionsAux] at h
      cases htm : tryMatchAt (c :: tl) with
      | some trip =>
        rw [htm] at h
        obtain ⟨nm, content, after⟩ := trip
        obtain ⟨⟨p, hp⟩, hterm⟩ := tryMatchAt_spec (c :: tl) nm content after htm
        rcases List.mem_cons.mp h with rfl | h3
        · exact ⟨p, after, by rw [hp, List.append_assoc], hterm⟩
        · obtain ⟨p', rest', hsplit, hterm'⟩ := ih after s h3
          refine ⟨p ++ content ++ p', rest', ?_, hterm'⟩
          rw [hp, hsplit]
          simp [List.append_assoc]
      | none =>
        rw [htm] at h
        obtain ⟨p', rest', hsplit, hterm'⟩ := ih tl s h
        exact ⟨c :: p', rest', by rw [hsplit]; rfl, hterm'⟩

/-- The entry loop reaches a `KeyError` and returns the empty list when
every earlier entry is loadable (well-shaped and compiling) and the
current one lacks `pattern`. -/
theorem loadEntries_keyError (compileOk : List Char → Bool) :
    ∀ pre fields post acc, (∀ e ∈ pre, entryLoadable compileOk e = true) →
      lookupField "pattern".data fields = none →
      loadEntries compileOk (pre ++ Json.obj fields :: post) acc = some [] := by
  intro pre
  induction pre with
  | nil =>
    intro fields post acc _ hk
    simp only [List.nil_append, loadEntries]
    rw [hk]
  | cons e pre' ih =>
    intro fields post acc hpre hk
    have he : entryLoadable compileOk e = true := hpre e (List.mem_cons_self _ _)
    cases e with
    | obj f =>
      simp only [entryLoadable] at he
      cases hl : lookupField "pattern".data f with
      | none => rw [hl] at he; simp at he
      | some v =>
        cases v with
        | str s =>
          rw [hl] at he
          simp at he
          simp only [List.cons_append, loadEntries]
          rw [hl]
          simp only [he, if_true]
          exact ih fields post _ (fun x hx => hpre x (List.mem_cons_of_mem _ hx)) hk
        | num n => rw [hl] at he; simp at he
        | bool b => rw [hl] at he; simp at he
        | null => rw [hl] at he; simp at he
        | arr xs => rw [hl] at he; simp at he
        | obj g => rw [hl] at he; simp at he
    | str s => simp [entryLoadable] at he
    | num n => simp [entryLoadable] at he
    | bool b => simp [entryLoadable] at he
    | null => simp [entryLoadable] at he
    | arr xs => simp [entryLoadable] at he

/-! ## Claims -/

/-- C1: for every log, a failure section whose header test-name token
normalizes to an identifier in the passed set extracted from the same log
produces no FailureRecord: no emitted record carries an identity that is a
member of the passed set, wherever the PASSED line occurs in the log. -/
theorem rerunSuppression (log : List Char) :
    ∀ r ∈ parseFailureDetails log, r.test_id ∉ passedIds log := by
  intro r h
  exact failLoop_not_passed (passedIds log) (findSections log) [] r h

/-- C1 witness: in `demoLog1` the `test_checkout_tc101` section is
suppressed by the trailing PASSED rerun line and only the `test_other`
record survives, whose identity is outside the passed set. -/
theorem rerunSuppression_witness :
    (⟨"test_other".data, "Could not determine failure.".data⟩ : FailureRecord).test_id ∉
      passedIds demoLog1 :=
  rerunSuppression demoLog1 _
    (by
      rw [show parseFailureDetails demoLog1 =
        [⟨"test_other".data, "Could not determine failure.".data⟩] from rfl]
      exact List.mem_singleton_self _)

/-- C2: for every log the summary result satisfies
`total = passed + failed + errors + skipped`; the total is recomputed from
the four category sums (the aggregator only ever searches the four labels,
so a literal overall-total figure in a banner is never consulted). -/
theorem totalInvariant (log : List Char) :
    (parse log).total =
      (parse log).passed + (parse log).failed + (parse log).errors + (parse log).skipped := by
  simp [parse, parseSummary]

/-- C3: the aggregator adds each banner's per-category integers onto
running totals rather than overwriting: each category equals the sum of
the counts found over all banners, and the two-banner example
`2 passed, 1 failed` / `3 passed, 0 failed` yields `passed = 5`,
`failed = 1`. -/
theorem bannerSums :
    (∀ log : List Char,
      ((parse log).passed =
        ((findBanners log).map (fun t => (findNum "passed".data t).getD 0)).sum) ∧
      ((parse log).failed =
        ((findBanners log).map (fun t => (findNum "failed".data t).getD 0)).sum) ∧
      ((parse log).errors =
        ((findBanners log).map (fun t => (findNum "error".data t).getD 0)).sum) ∧
      ((parse log).skipped =
        ((findBanners log).map (fun t => (findNum "skipped".data t).getD 0)).sum)) ∧
    (parse demoLog3).passed = 5 ∧ (parse demoLog3).failed = 1 := by
  refine ⟨?_, by rfl, by rfl⟩
  intro log
  obtain ⟨h1, h2, h3, h4⟩ := addBanner_foldl (findBanners log) ⟨0, 0, 0, 0, 0, []⟩
  refine ⟨?_, ?_, ?_, ?_⟩ <;>
    · simp only [parse, parseSummary]
      simp [h1, h2, h3, h4]

/-- C4: `check` evaluates the patterns strictly in list order and returns
the description and evidence line (the whole match stripped, then cut at
the first newline) of the first pattern whose search succeeds, regardless
of where in the text any pattern matches; it returns nothing when no
pattern matches, in particular when the list is empty. -/
theorem detectorPriority (ps : List StageFailurePattern) (log : List Char) :
    check ps log =
      (ps.find? (fun p => (p.compiled log).isSome)).bind
        (fun p => (p.compiled log).map (fun m => (p.description, matchedEvidence m))) := by
  induction ps with
  | nil => rfl
  | cons p rest ih =>
    cases h : p.compiled log with
    | none => simp [check, h, List.find?_cons, ih]
    | some m => simp [check, h, List.find?_cons]

/-- C5: when some stage-failure pattern matches a target's log, the
verdict is the stage-failure result alone; the pytest parser branch is
never taken, so a stage-failure verdict cannot coexist with a test-summary
verdict. -/
theorem stagePrecedence (ps : List StageFailurePattern) (log : List Char)
    (d e : List Char) (h : check ps log = some (d, e)) :
    analyzeTarget ps log = ClassificationResult.stageFailure d e ∧
      ∀ r, analyzeTarget ps log ≠ ClassificationResult.testReport r := by
  constructor
  · simp [analyzeTarget, h]
  · intro r
    simp [analyzeTarget, h]

/-- C5 witness: the OOM pattern matches `demoLog5`, so the verdict is the
stage failure and no test report is produced. -/
theorem stagePrecedence_witness :
    analyzeTarget [demoPatOOM] demoLog5 =
        ClassificationResult.stageFailure "OOM".data "OutOfMemoryError".data ∧
      ∀ r, analyzeTarget [demoPatOOM] demoLog5 ≠ ClassificationResult.testReport r :=
  stagePrecedence [demoPatOOM] demoLog5 "OOM".data "OutOfMemoryError".data rfl

/-- C6: the failure detail of a section follows the strict priority chain
of lines 78-84: an Applitools URL wins outright; otherwise an error line
`<file>.py:<line>: <text containing Error>` gives `Error: <text>`, which a
cursor line `<line> > <code>` overrides with the stripped code text; with
no applicable rule the detail is `Could not determine failure.`. -/
theorem detailPriority (content : List Char) :
    (∀ u, applitoolsSearch content = some u → failureDetail content = u) ∧
    (∀ f d t, applitoolsSearch content = none →
      errorLineSearch content = some (f, d, t) →
      ((codeLineSearch d content = none →
          failureDetail content = "Error: ".data ++ t) ∧
        (∀ c, codeLineSearch d content = some c →
          failureDetail content = pyStrip c))) ∧
    (applitoolsSearch content = none → errorLineSearch content = none →
      failureDetail content = "Could not determine failure.".data) := by
  refine ⟨?_, ?_, ?_⟩
  · intro u hu
    simp [failureDetail, hu]
  · intro f d t ha he
    constructor
    · intro hc
      simp [failureDetail, ha, he, hc]
    · intro c hc
      simp [failureDetail, ha, he, hc]
  · intro ha he
    simp [failureDetail, ha, he]

/-- C6 witness: the specification's end-to-end body — an
`AssertionError` line at `login.py:42` overridden by the cursor line —
yields the stripped code text. -/
theorem detailPriority_witness :
    failureDetail demoContent6 = "assert resp.status == 200".data :=
  ((detailPriority demoContent6).2.1 "login.py".data "42".data "AssertionError".data
      rfl rfl).2 "assert resp.status == 200".data rfl

/-- C7: the emitted failure list is the first-seen-order deduplication of
the suppressed candidate stream, and no two records share the same
`(test_id, detail)` pair. -/
theorem dedupFirstSeen (log : List Char) :
    parseFailureDetails log = firstSeenDedup (rawFailures log) ∧
      List.Pairwise
        (fun a b : FailureRecord => ¬(a.test_id = b.test_id ∧ a.code_line = b.code_line))
        (parseFailureDetails log) := by
  have he : parseFailureDetails log = firstSeenDedup (rawFailures log) := by
    simp only [parseFailureDetails, firstSeenDedup, rawFailures]
    exact failLoop_eq_dedup (passedIds log) (findSections log) []
  refine ⟨he, ?_⟩
  rw [he]
  exact (dedupAux_spec (rawFailures log) []).2

/-- C8 counterexample: the claim that the normalized identifier computed
from a PASSED line always equals the one computed from a failure header
for the same test fails on `demoLog8`: the token-less test `test_x` enters
the passed set as the module-qualified unit `tests/test_x.py::test_x`,
while its failure header normalizes to the bare `test_x`, so the failure
record survives despite the PASSED line. -/
theorem identityMismatch :
    passedIds demoLog8 = ["tests/test_x.py::test_x".data] ∧
      (parseFailureDetails demoLog8).map FailureRecord.test_id = ["test_x".data] ∧
      normalizeTestId "tests/test_x.py::test_x".data ≠ normalizeTestId "test_x".data := by
  refine ⟨rfl, rfl, ?_⟩
  decide

/-- C8 amended: the same normalizer is applied at both sites, but its
inputs differ (the PASSED line feeds the module-qualified unit, the
failure header the bare token).  The two normalized identifiers agree
whenever the `tc` token search finds the same token in both strings; when
neither string has a token, each site keeps its own raw string, so the
identifiers differ exactly when the raw strings do. -/
theorem identityNormalization :
    (∀ u nm t, tcSearch u = some t → tcSearch nm = some t →
      normalizeTestId u = normalizeTestId nm) ∧
    (∀ u nm, tcSearch u = none → tcSearch nm = none →
      normalizeTestId u = u ∧ normalizeTestId nm = nm) := by
  constructor
  · intro u nm t hu hn
    simp [normalizeTestId, hu, hn]
  · intro u nm hu hn
    simp [normalizeTestId, hu, hn]

/-- C8 amended witness: `tc101` is found both in the PASSED unit and in
the bare header token of the specification's rerun example, so both sites
normalize to the same identifier. -/
theorem identityNormalization_witness :
    normalizeTestId "tests/test_checkout.py::test_checkout_tc101".data =
      normalizeTestId "test_checkout_tc101".data :=
  identityNormalization.1 _ _ "tc101".data rfl rfl

/-- C9 counterexample: an entry that is malformed per the interface
contract (it lacks the required `description` key) does not disable the
feature: `_load_patterns` loads it, producing a one-element pattern list
rather than the empty list. -/
theorem malformedEntryLoads :
    (loadPatterns demoCompileOk demoBadPatterns).map List.length = some 1 ∧
      (loadPatterns demoCompileOk demoBadPatterns).map List.length ≠ some 0 := by
  constructor
  · rfl
  · intro h
    rw [show (loadPatterns demoCompileOk demoBadPatterns).map List.length = some 1
      from rfl] at h
    simp at h

/-- C9 amended: whatever `re.compile` accepts, a missing file or
undecodable JSON degrades to the empty pattern list, and so does an entry
missing the `pattern` key — provided every earlier entry loads — because
the `KeyError` reaches the handler, discarding any earlier entries rather
than loading a partial list; but an entry missing only `description`
loads (that key is first read at match time), an entry whose `pattern`
string is an invalid regex source raises an uncaught `re.error`, and a
non-string `pattern` value raises an uncaught `TypeError`, instead of
degrading. -/
theorem loaderDegradation :
    ∀ compileOk : List Char → Bool,
    loadPatterns compileOk FileOutcome.fileMissing = some [] ∧
    loadPatterns compileOk FileOutcome.badJson = some [] ∧
    (∀ pre fields post, (∀ e ∈ pre, entryLoadable compileOk e = true) →
      lookupField "pattern".data fields = none →
      loadPatterns compileOk
        (FileOutcome.ok (Json.arr (pre ++ Json.obj fields :: post))) = some []) ∧
    (∀ fields s post,
      lookupField "pattern".data fields = some (Json.str s) → compileOk s = false →
      loadPatterns compileOk (FileOutcome.ok (Json.arr (Json.obj fields :: post))) = none) ∧
    (∀ fields n post,
      lookupField "pattern".data fields = some (Json.num n) →
      loadPatterns compileOk (FileOutcome.ok (Json.arr (Json.obj fields :: post))) = none) := by
  intro compileOk
  refine ⟨rfl, rfl, ?_, ?_, ?_⟩
  · intro pre fields post hpre hk
    simp only [loadPatterns]
    exact loadEntries_keyError compileOk pre fields post [] hpre hk
  · intro fields s post hk hc
    simp only [loadPatterns, loadEntries]
    rw [hk]
    simp [hc]
  · intro fields n post hk
    simp only [loadPatterns, loadEntries]
    rw [hk]

/-- C9 amended witness: a one-entry file whose entry lacks `pattern`
degrades to the empty list. -/
theorem loaderDegradation_witness :
    loadPatterns demoCompileOk
        (FileOutcome.ok (Json.arr [Json.obj [("description".data, Json.str "x".data)]])) =
      some [] :=
  (loaderDegradation demoCompileOk).2.2.1 [] [("description".data, Json.str "x".data)] []
    (by intro e he; simp at he) rfl

/-- C10: the extractor only recognizes a failure section when a
terminating delimiter (another header or a ten-or-more `=` run) exists
after it — this includes the sections carved out by backtracking the
trailing underscore run, whose empty body sits right before the
terminator.  Every emitted section's body is immediately followed in the
log by such a suffix; the unterminated trailing section of `demoLogA`
yields nothing; appending a terminator (`demoLogB`) makes the same
section appear; and on `demoLogC` the backtracked match yields the
empty-content `test_a` section, as the program does. -/
theorem trailingSectionDropped :
    (∀ (log : List Char) (s : List Char × List Char), s ∈ findSections log →
      ∃ p rest, log = p ++ s.2 ++ rest ∧ isTerminatorAt rest = true) ∧
    findSections demoLogA = [] ∧
    findSections demoLogB = [("test_x".data, "\nbody\n".data)] ∧
    findSections demoLogC = [("test_a".data, [])] := by
  refine ⟨?_, rfl, rfl, rfl⟩
  intro log s h
  exact sectionsAux_spec (log.length + 1) log s h

/-- C10 witness: the terminated section of `demoLogB` is followed by a
terminator suffix. -/
theorem trailingSectionDropped_witness :
    ∃ p rest, demoLogB = p ++ "\nbody\n".data ++ rest ∧ isTerminatorAt rest = true :=
  trailingSectionDropped.1 demoLogB ("test_x".data, "\nbody\n".data)
    (by
      rw [show findSections demoLogB = [("test_x".data, "\nbody\n".data)] from rfl]
      exact List.mem_singleton_self _)
